import Mathlib

/-!
A verification development for the Tetris engine (src/engine/mod.rs,
src/engine/piece.rs): a shallow embedding of its data model and operations,
and theorems settling the specification's claims about them.

Conventions of the embedding:
* Rust `isize` becomes `Int`, `usize` becomes `Nat`.
* A Rust function that can panic (`unwrap`, `expect`, an active `assert!` /
  `debug_assert!`) is embedded as an `Option`-returning function, `none`
  standing for the panic.  Following §7 of the spec ("precondition checks that
  abort execution in debug/test builds"), `debug_assert!` is modelled as
  active, i.e. the embedding gives the debug/test-build semantics.
* The board (`Matrix`), a flat `[Option<Color>; WIDTH*HEIGHT]` array indexed by
  `y * WIDTH + x` behind bounds-asserting `Index`/`IndexMut` impls, is embedded
  as a total function from coordinates to `Option Color`; the flat index map is
  injective on in-bounds coordinates, and every in-source read is guarded by
  `in_matrix`, so the two views agree.
* `ThreadRng` is embedded as a stream `Nat → Nat` of raw random draws.
-/

namespace Tetris

/-- Board cell colors (`Color` in engine/mod.rs; the misspelling `Pruple` is the
source's own). -/
inductive Color where
  | Yellow | Cyan | Pruple | Orange | Blue | Green | Red
deriving DecidableEq, Repr

/-- The seven piece kinds (`Kind` in engine/piece.rs). -/
inductive Kind where
  | O | I | T | L | J | S | Z
deriving DecidableEq, Repr, Fintype

/-- The four orientations (`Rotation` in engine/piece.rs). -/
inductive Rotation where
  | N | E | S | W
deriving DecidableEq, Repr, Fintype

/-- `type Offset = Vector2<isize>` (engine/mod.rs). -/
abbrev Offset := Int × Int

/-- `type Coord = Point2<usize>` (engine/mod.rs). -/
abbrev Coord := Nat × Nat

/-- `Kind::ALL` (engine/piece.rs). -/
def Kind.ALL : List Kind := [.O, .I, .T, .L, .J, .S, .Z]

/-- `Kind::cells`: the local 4-cell template of each kind (engine/piece.rs). -/
def Kind.cells : Kind → List Offset
  | .O => [(1, 1), (1, 2), (2, 1), (2, 2)]
  | .I => [(0, 2), (1, 2), (2, 2), (3, 2)]
  | .T => [(0, 1), (1, 1), (2, 1), (1, 2)]
  | .L => [(0, 1), (1, 1), (2, 1), (2, 2)]
  | .J => [(0, 2), (0, 1), (1, 1), (2, 1)]
  | .S => [(0, 1), (1, 1), (1, 2), (2, 2)]
  | .Z => [(0, 2), (1, 2), (1, 1), (2, 1)]

/-- `Kind::local_grid_size` (engine/piece.rs): 4 for I, 3 otherwise. -/
def Kind.local_grid_size : Kind → Int
  | .I => 4
  | _ => 3

/-- Modelled from the spec: `Kind::color()` is called by `Engine::place_cursor`
(engine/mod.rs line 60) but its definition is not among the provided source
files.  The spec fixes only that each of the 7 Kinds maps to one of the 7 Color
enumerants, one per Kind; we take the positional correspondence of the two enum
declarations.  No claim depends on which distinct color a kind gets. -/
def Kind.color : Kind → Color
  | .O => .Yellow
  | .I => .Cyan
  | .T => .Pruple
  | .L => .Orange
  | .J => .Blue
  | .S => .Green
  | .Z => .Red

/-- `Rotation::intrinsic_offset` (engine/piece.rs). -/
def Rotation.intrinsic_offset : Rotation → Offset
  | .N => (0, 0)
  | .E => (0, 1)
  | .S => (1, 1)
  | .W => (1, 0)

/-- `impl Mul<Rotation> for Vector2` (engine/piece.rs): `v * r`. -/
def mulRotation (v : Offset) (r : Rotation) : Offset :=
  match r with
  | .N => v
  | .E => (v.2, -v.1)
  | .S => (-v.1, -v.2)
  | .W => (-v.2, v.1)

/-- `Piece` (engine/piece.rs). -/
structure Piece where
  kind : Kind
  position : Offset
  rotation : Rotation
deriving DecidableEq, Repr

/-- `Piece::moved_by` (engine/piece.rs). -/
def Piece.moved_by (p : Piece) (offset : Offset) : Piece :=
  { p with position := p.position + offset }

/-- `Piece::rotator` (engine/piece.rs): identity for O, otherwise the rotation
matrix followed by the intrinsic offset scaled elementwise by the kind's local
grid size. -/
def Piece.rotator (p : Piece) (cell : Offset) : Offset :=
  match p.kind with
  | .O => cell
  | _ =>
    mulRotation cell p.rotation +
      (p.rotation.intrinsic_offset.1 * p.kind.local_grid_size,
        p.rotation.intrinsic_offset.2 * p.kind.local_grid_size)

/-- `Piece::trasnlator` (engine/piece.rs; the misspelling is the source's own). -/
def Piece.trasnlator (p : Piece) (cell : Offset) : Offset :=
  cell + p.position

/-- `Matrix::WIDTH` (engine/mod.rs). -/
def Matrix.WIDTH : Nat := 10

/-- `Matrix::HEIGHT` (engine/mod.rs). -/
def Matrix.HEIGHT : Nat := 20

/-- The board (`Matrix` in engine/mod.rs), as a function view of the flat
`[Option<Color>; 200]` array (see the module comment). -/
abbrev Matrix := Coord → Option Color

/-- `Matrix::blank` (engine/mod.rs). -/
def Matrix.blank : Matrix := fun _ => none

/-- `Matrix::valid_coord` (engine/mod.rs): `x < WIDTH`. -/
def Matrix.valid_coord (c : Coord) : Bool :=
  decide (c.1 < Matrix.WIDTH)

/-- `Matrix::in_matrix` (engine/mod.rs): `valid_coord && y < HEIGHT`. -/
def Matrix.in_matrix (c : Coord) : Bool :=
  Matrix.valid_coord c && decide (c.2 < Matrix.HEIGHT)

/-- cgmath's `Vector2::<isize>::cast::<usize>()` (used by `Piece::cells`):
componentwise checked cast, `none` as soon as either component is negative. -/
def castUsize (o : Offset) : Option Coord :=
  if 0 ≤ o.1 ∧ 0 ≤ o.2 then some (o.1.toNat, o.2.toNat) else none

/-- The loop body of `Piece::cells` (engine/piece.rs lines 27-36): convert each
rotated-and-translated offset with the checked cast, reject an `x` off the
board's columns via `valid_coord`, and fail the whole conversion on the first
bad offset. -/
def coordsOf : List Offset → Option (List Coord)
  | [] => some []
  | o :: rest =>
    match castUsize o with
    | none => none
    | some coord =>
      if Matrix.valid_coord coord then
        match coordsOf rest with
        | none => none
        | some coords => some (coord :: coords)
      else none

/-- The rotated and translated absolute offsets of a piece:
`self.kind.cells().map(self.rotator()).map(self.trasnlator())`. -/
def Piece.offsets (p : Piece) : List Offset :=
  (p.kind.cells.map p.rotator).map p.trasnlator

/-- `Piece::cells` (engine/piece.rs): the absolute board coordinates of the
piece's 4 cells, or `none` ("unrepresentable") when a component is negative or
an x-component is off the board's columns. -/
def Piece.cells (p : Piece) : Option (List Coord) :=
  coordsOf p.offsets

/-- `Matrix::is_placeable` (engine/mod.rs): geometry succeeds and every cell is
in the matrix and empty. -/
def Matrix.is_placeable (m : Matrix) (p : Piece) : Bool :=
  match p.cells with
  | none => false
  | some cs => cs.all fun c => Matrix.in_matrix c && (m c).isNone

/-- `Matrix::is_clipping` (engine/mod.rs): geometry fails, or some cell is out
of the matrix or occupied. -/
def Matrix.is_clipping (m : Matrix) (p : Piece) : Bool :=
  match p.cells with
  | none => true
  | some cs => cs.any fun c => !Matrix.in_matrix c || (m c).isSome

/-- Pointwise update of the board, the effect of one `self.matrix[coord] = v`. -/
def Matrix.set (m : Matrix) (c : Coord) (v : Option Color) : Matrix :=
  fun c2 => if c2 = c then v else m c2

/-- The write loop of `place_cursor`: `self.matrix[coord] = Some(color)` for each
coordinate, where the `IndexMut` impl (engine/mod.rs lines 161-166) asserts
`in_matrix`; `none` models the panic of a failed assert. -/
def Matrix.writeCells (m : Matrix) (color : Color) : List Coord → Option Matrix
  | [] => some m
  | c :: rest =>
    if Matrix.in_matrix c then (Matrix.set m c (some color)).writeCells color rest
    else none

/-- `Move` (engine/mod.rs). -/
inductive Move where
  | Left | Right
deriving DecidableEq, Repr

/-- `Move::offset` (engine/mod.rs): `∓unit_x`. -/
def Move.offset : Move → Offset
  | .Left => (-1, 0)
  | .Right => (1, 0)

/-- `Engine` (engine/mod.rs).  The `ThreadRng` is embedded as a stream of raw
random draws. -/
structure Engine where
  matrix : Matrix
  bag : List Kind
  rng : Nat → Nat
  cursor : Option Piece

/-- `Engine::new`, with the thread-local random source supplied explicitly. -/
def Engine.new (rng : Nat → Nat) : Engine :=
  { matrix := Matrix.blank, bag := [], rng := rng, cursor := none }

/-- Modelled from the spec: rand's `SliceRandom::shuffle` (an external crate,
not part of this repository) — "apply a uniformly random shuffle (Fisher-Yates
or equivalent) using the supplied random source".  Equivalent draw-without-
replacement form: use the next raw draw of the stream to pick an index into the
remaining elements, move that element to the front, recurse on the rest.  The
fuel is the list length, the exact number of iterations of the loop. -/
def shuffleAux (rng : Nat → Nat) : Nat → Nat → List Kind → List Kind
  | 0, _, _ => []
  | _ + 1, _, [] => []
  | fuel + 1, k, x :: xs =>
    let l := x :: xs
    let pick := l.get ⟨rng k % l.length, Nat.mod_lt _ (Nat.succ_pos _)⟩
    pick :: shuffleAux rng fuel (k + 1) (l.erase pick)

/-- rand's `slice.shuffle(&mut rng)` over a `Vec<Kind>`. -/
def shuffle (rng : Nat → Nat) (l : List Kind) : List Kind :=
  shuffleAux rng l.length 0 l

/-- `Engine::refill_bag` (debug/test-build semantics: `none` models the
`debug_assert!` panic when the bag is not empty); extends the bag with
`Kind::ALL` and shuffles it, advancing the random stream past the draws the
shuffle consumed. -/
def Engine.refill_bag (e : Engine) : Option Engine :=
  if e.bag.isEmpty then
    some { e with
      bag := shuffle e.rng (e.bag ++ Kind.ALL),
      rng := fun k => e.rng (k + Kind.ALL.length) }
  else none

/-- `Engine::place_cursor` (debug/test-build semantics).  `none` models a
panic/abort: the `expect` on a missing cursor, the (inverted, see the claims
below) `debug_assert!(!self.matrix.is_placeable(&cursor))`, the `unwrap` of
`cursor.cells()`, or the `IndexMut` bounds assert of the write loop. -/
def Engine.place_cursor (e : Engine) : Option Engine :=
  match e.cursor with
  | none => none
  | some cursor =>
    if Matrix.is_placeable e.matrix cursor then none
    else
      match cursor.cells with
      | none => none
      | some cs =>
        match e.matrix.writeCells cursor.kind.color cs with
        | none => none
        | some m => some { e with matrix := m, cursor := none }

/-- `Engine::move_cursor`: the updated engine together with `true` for `Ok(())`
and `false` for `Err(())`. -/
def Engine.move_cursor (e : Engine) (mv : Move) : Engine × Bool :=
  match e.cursor with
  | none => (e, true)
  | some cursor =>
    let new := cursor.moved_by mv.offset
    if Matrix.is_clipping e.matrix new then (e, false)
    else ({ e with cursor := some new }, true)

/-- `Engine::ticked_down_cursor`: the cursor translated by `(0, -1)` when that
candidate is not clipping. -/
def Engine.ticked_down_cursor (e : Engine) : Option Piece :=
  match e.cursor with
  | none => none
  | some cursor =>
    let new := cursor.moved_by (0, -1)
    if Matrix.is_clipping e.matrix new then none else some new

/-- `Engine::try_tick_down`: `self.cursor = Some(self.ticked_down_cursor().unwrap())`;
`none` models the `unwrap` panic when `ticked_down_cursor()` is `None`. -/
def Engine.try_tick_down (e : Engine) : Option Engine :=
  e.ticked_down_cursor.map fun new => { e with cursor := some new }

/-- `Engine::cursor_has_hit_bottom`. -/
def Engine.cursor_has_hit_bottom (e : Engine) : Bool :=
  e.cursor.isSome && e.ticked_down_cursor.isNone

/-- The fuel-indexed iteration of `hard_drop`'s descent loop: perform at most
`n` downward steps, stopping early once the candidate clips. -/
def Engine.dropSteps : Nat → Engine → Engine
  | 0, e => e
  | n + 1, e =>
    match e.ticked_down_cursor with
    | none => e
    | some new => Engine.dropSteps n { e with cursor := some new }

/-- Termination measure for `hard_drop`'s `while let` loop: the cursor's height
above the level at which its geometry stops being representable. -/
def Engine.dropBound (e : Engine) : Nat :=
  match e.cursor with
  | none => 0
  | some p => (p.position.2 + 5).toNat

/-!
The lemmas that justify the termination of `hard_drop`'s descent loop (needed
by `decreasing_by` before the loop itself can be defined): a successful
geometry conversion forces every absolute y-offset to be non-negative, and the
local (rotated, untranslated) y-offsets all lie below 5, so a non-clipping
piece sits at `position.y ≥ -4` and each downward step strictly decreases the
measure `dropBound`.
-/

theorem castUsize_eq_some {o : Offset} {c : Coord} (h : castUsize o = some c) :
    0 ≤ o.1 ∧ 0 ≤ o.2 ∧ c = (o.1.toNat, o.2.toNat) := by
  unfold castUsize at h
  split at h
  · rename_i hc
    exact ⟨hc.1, hc.2, (Option.some.inj h).symm⟩
  · cases h

theorem coordsOf_some_forall {l : List Offset} {cs : List Coord}
    (h : coordsOf l = some cs) :
    ∀ o ∈ l, 0 ≤ o.1 ∧ 0 ≤ o.2 ∧ o.1 < (Matrix.WIDTH : Int) := by
  induction l generalizing cs with
  | nil => simp
  | cons o rest ih =>
    unfold coordsOf at h
    cases hco : castUsize o with
    | none => rw [hco] at h; cases h
    | some coord =>
      rw [hco] at h
      dsimp only at h
      obtain ⟨h1, h2, h3⟩ := castUsize_eq_some hco
      by_cases hv : Matrix.valid_coord coord = true
      · rw [if_pos hv] at h
        cases hrest : coordsOf rest with
        | none => rw [hrest] at h; cases h
        | some coords =>
          intro a ha
          rcases List.mem_cons.mp ha with rfl | ha2
          · refine ⟨h1, h2, ?_⟩
            rw [h3] at hv
            simp only [Matrix.valid_coord, Matrix.WIDTH, decide_eq_true_eq] at hv
            simp only [Matrix.WIDTH]
            omega
          · exact ih hrest a ha2
      · rw [if_neg hv] at h; cases h

/-- `rotator` reads only the kind and the rotation of its piece. -/
theorem rotator_position_irrel (k : Kind) (pos pos2 : Offset) (r : Rotation)
    (c : Offset) :
    Piece.rotator ⟨k, pos, r⟩ c = Piece.rotator ⟨k, pos2, r⟩ c := rfl

/-- Every local (rotated, untranslated) cell offset has y-component at most 4:
a finite check over the 7 kinds, 4 rotations and 4 template cells. -/
theorem local_y_le :
    ∀ (k : Kind) (r : Rotation), ∀ c ∈ Kind.cells k,
      (Piece.rotator ⟨k, (0, 0), r⟩ c).2 ≤ 4 := by decide

theorem Kind.cells_ne_nil (k : Kind) : k.cells ≠ [] := by cases k <;> simp [Kind.cells]

/-- A piece whose geometry is representable sits at `position.y ≥ -4`. -/
theorem cells_some_position {p : Piece} {cs : List Coord} (h : p.cells = some cs) :
    -4 ≤ p.position.2 := by
  have hall := coordsOf_some_forall h
  obtain ⟨c0, hc0⟩ := List.exists_mem_of_ne_nil _ (Kind.cells_ne_nil p.kind)
  have hy : (p.rotator c0).2 ≤ 4 := by
    obtain ⟨k, pos, r⟩ := p
    exact (rotator_position_irrel k pos (0, 0) r c0) ▸ local_y_le k r c0 hc0
  have hmem : p.trasnlator (p.rotator c0) ∈ p.offsets := by
    simp only [Piece.offsets, List.map_map, List.mem_map]
    exact ⟨c0, hc0, rfl⟩
  have h2 := (hall _ hmem).2.1
  simp only [Piece.trasnlator, Prod.snd_add] at h2
  omega

theorem is_clipping_false_cells {m : Matrix} {p : Piece}
    (h : Matrix.is_clipping m p = false) : ∃ cs, p.cells = some cs := by
  unfold Matrix.is_clipping at h
  cases hc : p.cells with
  | none => rw [hc] at h; cases h
  | some cs => exact ⟨cs, rfl⟩

theorem ticked_down_cursor_some {e : Engine} {q : Piece}
    (h : e.ticked_down_cursor = some q) :
    ∃ p, e.cursor = some p ∧ q = p.moved_by (0, -1) ∧
      Matrix.is_clipping e.matrix q = false := by
  unfold Engine.ticked_down_cursor at h
  cases hc : e.cursor with
  | none => rw [hc] at h; cases h
  | some p =>
    rw [hc] at h
    simp only at h
    by_cases hcl : Matrix.is_clipping e.matrix (p.moved_by (0, -1)) = true
    · rw [if_pos (by exact_mod_cast hcl)] at h; cases h
    · rw [Bool.not_eq_true] at hcl
      rw [if_neg (by simp [hcl])] at h
      have hq := Option.some.inj h
      exact ⟨p, rfl, hq.symm, hq ▸ hcl⟩

/-- Each iteration of the descent loop strictly decreases `dropBound`. -/
theorem dropBound_lt {e : Engine} {q : Piece} (h : e.ticked_down_cursor = some q) :
    Engine.dropBound { e with cursor := some q } < Engine.dropBound e := by
  obtain ⟨p, hp, hq, hcl⟩ := ticked_down_cursor_some h
  obtain ⟨cs, hcs⟩ := is_clipping_false_cells hcl
  have hpos := cells_some_position hcs
  subst hq
  simp only [Piece.moved_by, Prod.snd_add] at hpos
  unfold Engine.dropBound
  rw [hp]
  simp only [Piece.moved_by, Prod.snd_add]
  omega

/-- The `while let Some(new) = self.ticked_down_cursor()` loop of
`Engine::hard_drop` (engine/mod.rs lines 93-95). -/
def Engine.dropCursor (e : Engine) : Engine :=
  match h : e.ticked_down_cursor with
  | none => e
  | some new => Engine.dropCursor { e with cursor := some new }
termination_by e.dropBound
decreasing_by exact dropBound_lt h

/-- `Engine::hard_drop` (debug/test-build semantics, via `place_cursor`). -/
def Engine.hard_drop (e : Engine) : Option Engine :=
  e.dropCursor.place_cursor

/-! Concrete engine states used by the counterexamples and witnesses below. -/

/-- An arbitrary fixed random stream. -/
def rngZero : Nat → Nat := fun _ => 0

/-- Blank board, O piece resting on the floor: its downward candidate clips. -/
def cexTickEngine : Engine :=
  { matrix := Matrix.blank, bag := [], rng := rngZero, cursor := some ⟨.O, (0, -1), .N⟩ }

/-- Blank board, O piece with a free cell below. -/
def wTickEngine : Engine :=
  { matrix := Matrix.blank, bag := [], rng := rngZero, cursor := some ⟨.O, (3, 5), .N⟩ }

/-- Blank board, O piece well inside the board: a placeable cursor. -/
def cexPlaceEngine : Engine :=
  { matrix := Matrix.blank, bag := [], rng := rngZero, cursor := some ⟨.O, (0, 0), .N⟩ }

/-- Blank board, O piece against the left wall: moving left clips. -/
def wMoveBlocked : Engine :=
  { matrix := Matrix.blank, bag := [], rng := rngZero, cursor := some ⟨.O, (-1, 0), .N⟩ }

/-- Blank board, O piece free to move right. -/
def wMoveFree : Engine :=
  { matrix := Matrix.blank, bag := [], rng := rngZero, cursor := some ⟨.O, (0, 0), .N⟩ }

/-- Blank board, T piece two rows above its resting position. -/
def cexDropEngine : Engine :=
  { matrix := Matrix.blank, bag := [], rng := rngZero, cursor := some ⟨.T, (3, 1), .N⟩ }

/-! Shared lemmas. -/

/-- Over any cell list, "some cell invalid" is the negation of "all cells
valid". -/
theorem matrix_any_not_all (m : Matrix) (cs : List Coord) :
    (cs.any fun c => !Matrix.in_matrix c || (m c).isSome) =
      !(cs.all fun c => Matrix.in_matrix c && (m c).isNone) := by
  induction cs with
  | nil => rfl
  | cons c rest ih =>
    simp only [List.any_cons, List.all_cons, Bool.not_and, ih]
    cases hm : m c <;> cases hin : Matrix.in_matrix c <;> simp [hm, hin]

/-- The two legality predicates agree pointwise: clipping is exactly the boolean
negation of placeability, the `cells = none` case included. -/
theorem clipping_complement (m : Matrix) (p : Piece) :
    Matrix.is_clipping m p = !(Matrix.is_placeable m p) := by
  unfold Matrix.is_clipping Matrix.is_placeable
  cases p.cells with
  | none => rfl
  | some cs => exact matrix_any_not_all m cs

/-- Unfolding the descent loop when the candidate clips: the loop exits. -/
theorem dropCursor_of_none {e : Engine} (h : e.ticked_down_cursor = none) :
    e.dropCursor = e := by
  rw [Engine.dropCursor.eq_def]
  split
  · rfl
  · rename_i new heq
    rw [h] at heq
    cases heq

/-- Unfolding the descent loop when the candidate does not clip: one step. -/
theorem dropCursor_of_some {e : Engine} {q : Piece}
    (h : e.ticked_down_cursor = some q) :
    e.dropCursor = Engine.dropCursor { e with cursor := some q } := by
  conv_lhs => rw [Engine.dropCursor.eq_def]
  split
  · rename_i heq
    rw [h] at heq
    cases heq
  · rename_i new heq
    rw [h] at heq
    injection heq with h2
    rw [h2]

/-- The shuffle returns a permutation of its input whenever the fuel covers the
list, as it does in `shuffle` itself. -/
theorem shuffleAux_perm (rng : Nat → Nat) :
    ∀ (fuel k : Nat) (l : List Kind), l.length ≤ fuel →
      (shuffleAux rng fuel k l).Perm l := by
  intro fuel
  induction fuel with
  | zero =>
    intro k l hl
    have : l = [] := List.eq_nil_of_length_eq_zero (Nat.le_zero.mp hl)
    subst this
    simp [shuffleAux]
  | succ fuel ih =>
    intro k l hl
    cases l with
    | nil => simp [shuffleAux]
    | cons x xs =>
      simp only [shuffleAux]
      have hmem : (x :: xs).get ⟨rng k % (x :: xs).length, Nat.mod_lt _ (Nat.succ_pos _)⟩
          ∈ x :: xs := List.get_mem _ _ _
      refine List.Perm.trans (List.Perm.cons _ (ih (k + 1) _ ?_))
        (List.perm_cons_erase hmem).symm
      rw [List.length_erase_of_mem hmem]
      simp only [List.length_cons] at hl ⊢
      omega

/-! The claims. -/

/-- C1 counterexample: at a concrete engine whose cursor sits on the floor (so
the downward candidate is clipping), `try_tick_down` returns no successor state
at all — it panics on the `unwrap` — rather than committing the cursor's cells
into the board and clearing the cursor as the claim states. -/
theorem tick_down_no_commit_counterexample :
    Matrix.is_clipping cexTickEngine.matrix
      ((⟨.O, (0, -1), .N⟩ : Piece).moved_by (0, -1)) = true ∧
    cexTickEngine.try_tick_down = none :=
  ⟨rfl, rfl⟩

/-- C1 (amended): `try_tick_down` is not total on states with a cursor: when the
downward candidate is clipping it panics (the `unwrap` of `None`), committing
nothing; when the candidate is not clipping the cursor becomes the candidate
and the board (and bag) are unchanged. -/
theorem try_tick_down_spec (e : Engine) (p : Piece) (hc : e.cursor = some p) :
    (Matrix.is_clipping e.matrix (p.moved_by (0, -1)) = true →
      e.try_tick_down = none) ∧
    (Matrix.is_clipping e.matrix (p.moved_by (0, -1)) = false →
      e.try_tick_down = some { e with cursor := some (p.moved_by (0, -1)) }) := by
  unfold Engine.try_tick_down Engine.ticked_down_cursor
  rw [hc]
  constructor
  · intro hcl
    simp [hcl]
  · intro hcl
    simp [hcl]

/-- Witness for C1's theorem at a concrete engine with a free cell below. -/
theorem try_tick_down_spec_witness :
    wTickEngine.cursor = some ⟨.O, (3, 5), .N⟩ ∧
    wTickEngine.try_tick_down =
      some { wTickEngine with cursor := some ((⟨.O, (3, 5), .N⟩ : Piece).moved_by (0, -1)) } :=
  ⟨rfl, (try_tick_down_spec wTickEngine ⟨.O, (3, 5), .N⟩ rfl).2 rfl⟩

/-- C2: the commit assertion is inverted, so the claim fails on the code: at a
concrete engine whose cursor is placeable on the blank board, the condition of
`debug_assert!(!self.matrix.is_placeable(&cursor))` is false and the debug/test
build aborts (modelled as `none`) without writing any cell — although the
assertion's own message ("Tried to place cursor in an invalid location") and
the spec say a placeable cursor is exactly the valid case. -/
theorem place_cursor_assert_bug :
    Matrix.is_placeable cexPlaceEngine.matrix (⟨.O, (0, 0), .N⟩ : Piece) = true ∧
    cexPlaceEngine.place_cursor = none :=
  ⟨rfl, rfl⟩

/-- C3 counterexample: the O piece at position (0, -2) has all four rotated and
translated x-components inside [0, WIDTH) and a negative y-component, yet
`Piece::cells` returns the unrepresentable sentinel (`none`) instead of
succeeding: cgmath's checked cast fails on either negative component. -/
theorem cells_negative_y_counterexample :
    (∀ o ∈ Piece.offsets ⟨.O, (0, -2), .N⟩, 0 ≤ o.1 ∧ o.1 < (Matrix.WIDTH : Int)) ∧
    (∃ o ∈ Piece.offsets ⟨.O, (0, -2), .N⟩, o.2 < 0) ∧
    Piece.cells ⟨.O, (0, -2), .N⟩ = none := by
  decide

/-- C3 (amended): for every piece whose rotated-and-translated offsets all have
x-component in [0, WIDTH) but at least one negative y-component, the geometry
computation fails with the unrepresentable sentinel: negative y is rejected by
`cells` itself, not passed through to board-bounds checking. -/
theorem cells_negative_y_rejected (p : Piece)
    (hx : ∀ o ∈ p.offsets, 0 ≤ o.1 ∧ o.1 < (Matrix.WIDTH : Int))
    (hy : ∃ o ∈ p.offsets, o.2 < 0) :
    p.cells = none := by
  cases hc : p.cells with
  | none => rfl
  | some cs =>
    obtain ⟨o, ho, hneg⟩ := hy
    have := (coordsOf_some_forall hc o ho).2.1
    omega

/-- Witness for C3's theorem at the concrete piece of the counterexample. -/
theorem cells_negative_y_rejected_witness :
    Piece.cells ⟨.O, (0, -2), .N⟩ = none :=
  cells_negative_y_rejected ⟨.O, (0, -2), .N⟩ (by decide) (by decide)

/-- C4 counterexample: the claimed disagreement does not exist — no board and
piece make `is_clipping` differ from the boolean negation of `is_placeable`,
not even one with unrepresentable geometry (there `is_placeable` is `false` and
`is_clipping` is `true`, which still agree). -/
theorem clipping_placeable_no_gap :
    ¬ ∃ (m : Matrix) (p : Piece),
        Matrix.is_clipping m p ≠ !(Matrix.is_placeable m p) := by
  rintro ⟨m, p, hne⟩
  exact hne (clipping_complement m p)

/-- C4 (amended): `is_placeable` and `is_clipping` are exact logical
complements on every board and every piece, pieces with unrepresentable
geometry included. -/
theorem is_clipping_eq_not_is_placeable (m : Matrix) (p : Piece) :
    Matrix.is_clipping m p = !(Matrix.is_placeable m p) :=
  clipping_complement m p

/-- C5: `move_cursor` with a direction in {Left, Right}: with no cursor it
succeeds and changes nothing; with a cursor whose ±1-on-x candidate is clipping
it fails and the whole state (cursor position and rotation, board, bag) is
unchanged; otherwise it succeeds and replaces the cursor by the candidate,
leaving the board unchanged. -/
theorem move_cursor_spec (e : Engine) (mv : Move) :
    (e.cursor = none → e.move_cursor mv = (e, true)) ∧
    (∀ p, e.cursor = some p →
      Matrix.is_clipping e.matrix (p.moved_by mv.offset) = true →
        e.move_cursor mv = (e, false)) ∧
    (∀ p, e.cursor = some p →
      Matrix.is_clipping e.matrix (p.moved_by mv.offset) = false →
        e.move_cursor mv = ({ e with cursor := some (p.moved_by mv.offset) }, true)) := by
  refine ⟨?_, ?_, ?_⟩
  · intro h
    unfold Engine.move_cursor
    rw [h]
  · intro p hp hcl
    unfold Engine.move_cursor
    rw [hp]
    simp [hcl]
  · intro p hp hcl
    unfold Engine.move_cursor
    rw [hp]
    simp [hcl]

/-- Witness for C5's theorem: all three branches at concrete engines — no
cursor, a cursor blocked against the left wall, and a free cursor. -/
theorem move_cursor_spec_witness :
    (Engine.new rngZero).move_cursor .Left = (Engine.new rngZero, true) ∧
    wMoveBlocked.move_cursor .Left = (wMoveBlocked, false) ∧
    wMoveFree.move_cursor .Right =
      ({ wMoveFree with
          cursor := some ((⟨.O, (0, 0), .N⟩ : Piece).moved_by Move.Right.offset) }, true) :=
  ⟨(move_cursor_spec (Engine.new rngZero) .Left).1 rfl,
   (move_cursor_spec wMoveBlocked .Left).2.1 _ rfl rfl,
   (move_cursor_spec wMoveFree .Right).2.2 _ rfl rfl⟩

/-- C6: the claim fails on the code under the debug/test-build semantics the
spec prescribes for contract checks: at a concrete engine whose cursor (a T
piece on a blank board) has representable geometry, the descent loop does reach
the lowest non-clipping position, but `place_cursor`'s inverted
`debug_assert!(!is_placeable)` then aborts — `hard_drop` returns no state and
commits nothing, instead of writing the 4 cells and clearing the cursor. -/
theorem hard_drop_assert_bug :
    Piece.cells ⟨.T, (3, 1), .N⟩ = some [(3, 2), (4, 2), (5, 2), (4, 3)] ∧
    cexDropEngine.dropCursor = { cexDropEngine with cursor := some ⟨.T, (3, -1), .N⟩ } ∧
    Matrix.is_placeable Matrix.blank (⟨.T, (3, -1), .N⟩ : Piece) = true ∧
    cexDropEngine.hard_drop = none := by
  have h1 : cexDropEngine.ticked_down_cursor = some ⟨.T, (3, 0), .N⟩ := rfl
  have h2 : ({ cexDropEngine with cursor := some ⟨.T, (3, 0), .N⟩ } : Engine).ticked_down_cursor
      = some ⟨.T, (3, -1), .N⟩ := rfl
  have h3 : ({ cexDropEngine with cursor := some ⟨.T, (3, -1), .N⟩ } : Engine).ticked_down_cursor
      = none := rfl
  have hdrop : cexDropEngine.dropCursor
      = { cexDropEngine with cursor := some ⟨.T, (3, -1), .N⟩ } := by
    rw [dropCursor_of_some h1, dropCursor_of_some h2, dropCursor_of_none h3]
  refine ⟨rfl, hdrop, rfl, ?_⟩
  unfold Engine.hard_drop
  rw [hdrop]
  rfl

/-- C7: the descent loop of `hard_drop` terminates on every engine state: some
finite number of downward translations `n`, bounded by the cursor's height
above the level where its geometry stops being representable (`dropBound`),
reaches the loop's fixed point, at which the downward candidate is clipping. -/
theorem hard_drop_terminates (e : Engine) :
    ∃ n ≤ e.dropBound, Engine.dropSteps n e = e.dropCursor ∧
      e.dropCursor.ticked_down_cursor = none := by
  generalize hb : e.dropBound = B
  induction B using Nat.strong_induction_on generalizing e with
  | _ B ih =>
    cases h : e.ticked_down_cursor with
    | none =>
      refine ⟨0, Nat.zero_le _, ?_, ?_⟩
      · rw [dropCursor_of_none h]
        rfl
      · rw [dropCursor_of_none h]
        exact h
    | some q =>
      have hlt := dropBound_lt h
      rw [hb] at hlt
      obtain ⟨n, hn, hsteps, hfinal⟩ := ih _ hlt { e with cursor := some q } rfl
      refine ⟨n + 1, by omega, ?_, ?_⟩
      · show Engine.dropSteps (n + 1) e = _
        simp only [Engine.dropSteps]
        rw [h]
        dsimp only
        rw [hsteps, dropCursor_of_some h]
      · rw [dropCursor_of_some h]
        exact hfinal

/-- C8: geometry matches the spec's reference example: the S piece at position
(5, 6) with rotation W occupies exactly the absolute coordinates
(7,6), (7,7), (6,7), (6,8), in the source's cell order — not the sentinel. -/
theorem s_piece_positioning :
    Piece.cells ⟨.S, (5, 6), .W⟩ = some [(7, 6), (7, 7), (6, 7), (6, 8)] := by
  decide

/-- C9: refilling an empty bag is fair for every random stream: `refill_bag`
succeeds and leaves the bag a permutation of `Kind::ALL`, so each of the 7
kinds occurs exactly once and 7 consecutive front-removals return every kind
exactly once with no repeats. -/
theorem refill_bag_fair (e : Engine) (h : e.bag = []) :
    ∃ e2, e.refill_bag = some e2 ∧ e2.bag.Perm Kind.ALL ∧
      ∀ k : Kind, e2.bag.count k = 1 := by
  unfold Engine.refill_bag
  rw [h]
  have hperm : (shuffle e.rng ([] ++ Kind.ALL)).Perm Kind.ALL := by
    simpa using shuffleAux_perm e.rng (([] ++ Kind.ALL).length) 0 ([] ++ Kind.ALL)
      (Nat.le_refl _)
  refine ⟨_, rfl, hperm, ?_⟩
  intro k
  rw [hperm.count_eq]
  cases k <;> rfl

/-- Witness for C9's theorem at a fresh engine with the fixed stream. -/
theorem refill_bag_fair_witness :
    ∃ e2, (Engine.new rngZero).refill_bag = some e2 ∧ e2.bag.Perm Kind.ALL ∧
      ∀ k : Kind, e2.bag.count k = 1 :=
  refill_bag_fair (Engine.new rngZero) rfl

/-- C10: the O piece is rotation-invariant: at every position and rotation its
cells equal those of the same piece with rotation N, because `rotator` applies
neither the rotation transform nor the corrective offset to O. -/
theorem o_piece_rotation_invariant (pos : Offset) (r : Rotation) :
    Piece.cells ⟨.O, pos, r⟩ = Piece.cells ⟨.O, pos, .N⟩ := by
  cases r <;> rfl

end Tetris
